import Mathlib

/-!
Shallow embedding of the CSG renderer (`src/wololo/renderer/renderer.c` and
`renderer.h` of tsnl/CsgRenderer) together with proofs about its scene arena,
its swapchain/queue-family/format selection logic, its frame-index protocol,
and its construction/teardown bookkeeping.

Conventions of the embedding:
* C `double` scalar payloads (`Wo_Scalar`) are only ever stored into and copied
  out of the arena by the code under verification, never computed with, so they
  are embedded as rationals.
* The arena's parallel tables (`node_type_table`, `node_info_table`,
  `node_is_nonroot_bitset`) are embedded as total functions from indices,
  updated pointwise, mirroring the C arrays inside the slab.
* `uint64_t` bitset words are natural numbers; the code only ORs single bits
  below 2^64 into words, so no wraparound can occur on them.  Where `uint32_t`
  arithmetic can wrap (the swapchain image-count computation) an explicit
  `% 2 ^ 32` is kept.
* Fallible C paths (`calloc` returning NULL, `allocate_node` returning false,
  the fatal-`assert` paths of the `add_*` constructors) are embedded with
  `Option`: `none` is the failure/abort outcome.
-/

namespace CsgRenderer

/-- `Wo_Scalar` (C `double`, `wmath`): stored opaquely by the arena. -/
abbrev Wo_Scalar : Type := ℚ

/-- `Wo_Vec3` (`wmath.decl.h`): three scalar components. -/
structure Wo_Vec3 where
  x : Wo_Scalar
  y : Wo_Scalar
  z : Wo_Scalar
deriving DecidableEq

/-- `Wo_Quaternion` (`wmath.decl.h`): four scalar components. -/
structure Wo_Quaternion where
  w : Wo_Scalar
  x : Wo_Scalar
  y : Wo_Scalar
  z : Wo_Scalar
deriving DecidableEq

/-- `Wo_Node` (`renderer.h:15`): a `uint32_t` arena index.  Embedded as `Nat`
carrying the value of the 32-bit word, so every node identity the allocator
hands out is reduced `% 2 ^ 32` at the narrowing cast that produces it
(`renderer.c:2224`). -/
abbrev Wo_Node : Type := Nat

/-- `Wo_Node_Argument` (`renderer.h:21-26`): a placement of a child node. -/
structure Wo_Node_Argument where
  orientation : Wo_Quaternion
  offset : Wo_Vec3
  node : Wo_Node
deriving DecidableEq

/-- `NodeType` (`renderer.c:182-188`). -/
inductive NodeType where
  | WO_LEAF_SPHERE
  | WO_LEAF_INFINITE_PLANAR_PARTITION
  | WO_NODE_BINOP_UNION_OF
  | WO_NODE_BINOP_INTERSECTION_OF
  | WO_NODE_BINOP_DIFFERENCE_OF
deriving DecidableEq

/-- `NodeInfo` (`renderer.c:189-202`): the kind-dependent payload union. -/
inductive NodeInfo where
  | sphere (radius : Wo_Scalar)
  | infinite_planar_partition (normal : Wo_Vec3)
  | binop_of (left right : Wo_Node_Argument)
deriving DecidableEq

/-- The state of `struct Wo_Renderer` (`renderer.c:211-314`) that the arena
operations and the frame counter read and write: the node arena tables
(`renderer.c:213-217`) and `current_frame_index` (`renderer.c:312`).  The table
pointers into the slab are embedded as total functions on indices. -/
structure Renderer where
  max_node_count : Nat
  current_node_count : Nat
  node_type_table : Nat → NodeType
  node_info_table : Nat → NodeInfo
  node_is_nonroot_bitset : Nat → Nat
  current_frame_index : Nat

/-- The renderer state produced by `allocate_renderer` (`renderer.c:338-393`)
when `calloc` succeeds: the whole slab is zero-initialized (`renderer.c:361`),
so `current_node_count = 0`, every type-table entry is the enum value 0
(`WO_LEAF_SPHERE`), every payload is all-zero bytes, and every bitset word
is 0. -/
def zero_initialized_renderer (max_node_count : Nat) : Renderer where
  max_node_count := max_node_count
  current_node_count := 0
  node_type_table := fun _ => NodeType.WO_LEAF_SPHERE
  node_info_table := fun _ => NodeInfo.sphere 0
  node_is_nonroot_bitset := fun _ => 0
  current_frame_index := 0

/-- `allocate_renderer` (`renderer.c:338-393`): the host `calloc` of the slab
can fail (`renderer.c:361-365`), in which case the function prints an error
and returns NULL (`none` here); the allocator outcome is the `calloc_ok`
parameter. -/
def allocate_renderer (calloc_ok : Bool) (max_node_count : Nat) : Option Renderer :=
  if calloc_ok then some (zero_initialized_renderer max_node_count) else none

/-- `allocate_node` (`renderer.c:2220-2227`): fails (returns false, here
`none`) iff the arena is full; otherwise `renderer.c:2224` executes
`*out_node = (Wo_Node)renderer->current_node_count++` — it hands out the
`size_t` counter narrowed to `uint32_t` (hence the `% 2 ^ 32`) and increments
the counter.  The counter itself never wraps: it only increments while
different from the `size_t` capacity, so it stays at most `max_node_count`. -/
def allocate_node (r : Renderer) : Option (Wo_Node × Renderer) :=
  if r.current_node_count = r.max_node_count then
    none
  else
    some (r.current_node_count % 2 ^ 32,
      { r with current_node_count := r.current_node_count + 1 })

/-- `set_nonroot_node` (`renderer.c:2228-2230`):
`node_is_nonroot_bitset[node/64] |= ((uint64_t)1) << (node%64)`. -/
def set_nonroot_node (r : Renderer) (node : Wo_Node) : Renderer :=
  { r with node_is_nonroot_bitset := fun w =>
      if w = node / 64 then
        Nat.lor (r.node_is_nonroot_bitset (node / 64)) (Nat.shiftLeft 1 (node % 64))
      else
        r.node_is_nonroot_bitset w }

/-- `wo_renderer_isroot` (`renderer.c:2309-2313`): true iff the node's
non-root bit is unset. -/
def wo_renderer_isroot (r : Renderer) (node : Wo_Node) : Bool :=
  let cmp_word := r.node_is_nonroot_bitset (node / 64)
  Nat.land cmp_word (Nat.shiftLeft 1 (node % 64)) == 0

/-- `add_sphere_node` (`renderer.c:2232-2238`): allocates a node (the
fatal-`assert` exhaustion path is `none`), stores kind and radius. -/
def add_sphere_node (r : Renderer) (radius : Wo_Scalar) : Option (Wo_Node × Renderer) :=
  match allocate_node r with
  | none => none
  | some (node, r1) =>
    some (node,
      { r1 with
          node_type_table := Function.update r1.node_type_table node NodeType.WO_LEAF_SPHERE
          node_info_table := Function.update r1.node_info_table node (NodeInfo.sphere radius) })

/-- `add_infinite_planar_partition_node` (`renderer.c:2239-2245`). -/
def add_infinite_planar_partition_node (r : Renderer) (outward_facing_normal : Wo_Vec3) :
    Option (Wo_Node × Renderer) :=
  match allocate_node r with
  | none => none
  | some (node, r1) =>
    some (node,
      { r1 with
          node_type_table :=
            Function.update r1.node_type_table node NodeType.WO_LEAF_INFINITE_PLANAR_PARTITION
          node_info_table :=
            Function.update r1.node_info_table node
              (NodeInfo.infinite_planar_partition outward_facing_normal) })

/-- `add_union_of_node` (`renderer.c:2246-2255`): stores kind and both node
arguments, then marks both children non-root. -/
def add_union_of_node (r : Renderer) (left right : Wo_Node_Argument) :
    Option (Wo_Node × Renderer) :=
  match allocate_node r with
  | none => none
  | some (node, r1) =>
    let r2 :=
      { r1 with
          node_type_table := Function.update r1.node_type_table node NodeType.WO_NODE_BINOP_UNION_OF
          node_info_table := Function.update r1.node_info_table node (NodeInfo.binop_of left right) }
    some (node, set_nonroot_node (set_nonroot_node r2 left.node) right.node)

/-- `add_intersection_of_node` (`renderer.c:2256-2265`). -/
def add_intersection_of_node (r : Renderer) (left right : Wo_Node_Argument) :
    Option (Wo_Node × Renderer) :=
  match allocate_node r with
  | none => none
  | some (node, r1) =>
    let r2 :=
      { r1 with
          node_type_table :=
            Function.update r1.node_type_table node NodeType.WO_NODE_BINOP_INTERSECTION_OF
          node_info_table := Function.update r1.node_info_table node (NodeInfo.binop_of left right) }
    some (node, set_nonroot_node (set_nonroot_node r2 left.node) right.node)

/-- `add_difference_of_node` (`renderer.c:2266-2275`). -/
def add_difference_of_node (r : Renderer) (left right : Wo_Node_Argument) :
    Option (Wo_Node × Renderer) :=
  match allocate_node r with
  | none => none
  | some (node, r1) =>
    let r2 :=
      { r1 with
          node_type_table :=
            Function.update r1.node_type_table node NodeType.WO_NODE_BINOP_DIFFERENCE_OF
          node_info_table := Function.update r1.node_info_table node (NodeInfo.binop_of left right) }
    some (node, set_nonroot_node (set_nonroot_node r2 left.node) right.node)

/-- One node-creation call, covering the five public constructors
(`renderer.c:2293-2307` dispatch straight to the `add_*_node` functions). -/
inductive ArenaOp where
  | addSphere (radius : Wo_Scalar)
  | addPlanarPartition (normal : Wo_Vec3)
  | addUnionOf (left right : Wo_Node_Argument)
  | addIntersectionOf (left right : Wo_Node_Argument)
  | addDifferenceOf (left right : Wo_Node_Argument)
deriving DecidableEq

/-- Dispatch of one creation call to the corresponding `add_*_node`. -/
def applyOp (r : Renderer) : ArenaOp → Option (Wo_Node × Renderer)
  | .addSphere radius => add_sphere_node r radius
  | .addPlanarPartition normal => add_infinite_planar_partition_node r normal
  | .addUnionOf left right => add_union_of_node r left right
  | .addIntersectionOf left right => add_intersection_of_node r left right
  | .addDifferenceOf left right => add_difference_of_node r left right

/-- Runs a sequence of creation calls; `none` as soon as one aborts. -/
def runOps (r : Renderer) : List ArenaOp → Option Renderer
  | [] => some r
  | op :: rest =>
    match applyOp r op with
    | none => none
    | some (_, r1) => runOps r1 rest

/-- Runs a sequence of creation calls, also collecting the returned indices. -/
def runTrace (r : Renderer) : List ArenaOp → Option (List Wo_Node × Renderer)
  | [] => some ([], r)
  | op :: rest =>
    match applyOp r op with
    | none => none
    | some (n, r1) =>
      match runTrace r1 rest with
      | none => none
      | some (ns, r2) => some (n :: ns, r2)

/-- Whether a creation call consumes node index `x` as a child argument
(the only calls that do are the three binop constructors). -/
def childOf (x : Wo_Node) : ArenaOp → Bool
  | .addSphere _ => false
  | .addPlanarPartition _ => false
  | .addUnionOf left right => x == left.node || x == right.node
  | .addIntersectionOf left right => x == left.node || x == right.node
  | .addDifferenceOf left right => x == left.node || x == right.node

/-- Whether a creation call is one of the two leaf constructors. -/
def ArenaOp.isLeaf : ArenaOp → Bool
  | .addSphere _ => true
  | .addPlanarPartition _ => true
  | _ => false

end CsgRenderer

namespace CsgRenderer

/-! Basic facts about the non-root bitset encoding. -/

/-- A word ANDed with a single-bit mask is zero iff that bit is unset. -/
theorem land_bit_eq_zero_iff (w k : Nat) :
    Nat.land w (Nat.shiftLeft 1 k) = 0 ↔ w.testBit k = false := by
  have hs : Nat.shiftLeft 1 k = 2 ^ k := by
    rw [show Nat.shiftLeft 1 k = 1 <<< k from rfl, Nat.shiftLeft_eq, one_mul]
  rw [hs, show Nat.land w (2 ^ k) = w &&& 2 ^ k from rfl, Nat.and_two_pow]
  cases h : w.testBit k <;> simp [Nat.pow_eq_zero]

/-- Root status reads exactly bit `node % 64` of bitset word `node / 64`. -/
theorem isroot_eq_not_testBit (r : Renderer) (node : Wo_Node) :
    wo_renderer_isroot r node =
      !((r.node_is_nonroot_bitset (node / 64)).testBit (node % 64)) := by
  unfold wo_renderer_isroot
  cases h : (r.node_is_nonroot_bitset (node / 64)).testBit (node % 64) with
  | false =>
    simp only [Bool.not_false, beq_iff_eq]
    exact (land_bit_eq_zero_iff _ _).mpr h
  | true =>
    simp only [Bool.not_true, beq_eq_false_iff_ne, ne_eq]
    intro hz
    rw [(land_bit_eq_zero_iff _ _).mp hz] at h
    exact Bool.false_ne_true h

/-- Two distinct indices cannot share both their word and their bit offset. -/
theorem node_word_bit_inj {x y : Nat} (hw : x / 64 = y / 64) (hb : x % 64 = y % 64) :
    x = y := by
  have h1 := Nat.div_add_mod x 64
  have h2 := Nat.div_add_mod y 64
  omega

/-- Effect of `set_nonroot_node` on an arbitrary bit of an arbitrary word. -/
theorem set_nonroot_node_testBit (r : Renderer) (node : Wo_Node) (w i : Nat) :
    ((set_nonroot_node r node).node_is_nonroot_bitset w).testBit i =
      ((r.node_is_nonroot_bitset w).testBit i ||
        (decide (w = node / 64) && decide (i = node % 64))) := by
  unfold set_nonroot_node
  dsimp only
  by_cases hw : w = node / 64
  · subst hw
    rw [if_pos rfl, show Nat.lor (r.node_is_nonroot_bitset (node / 64))
          (Nat.shiftLeft 1 (node % 64)) =
        r.node_is_nonroot_bitset (node / 64) ||| (1 <<< (node % 64)) from rfl,
      Nat.shiftLeft_eq, one_mul, Nat.testBit_lor]
    by_cases hi : i = node % 64
    · subst hi
      simp [Nat.testBit_two_pow_self]
    · simp [Nat.testBit_two_pow_of_ne (Ne.symm hi), hi]
  · rw [if_neg hw]
    simp [hw]

/-- Setting a node's non-root bit clears its root status. -/
theorem isroot_set_nonroot_self (r : Renderer) (node : Wo_Node) :
    wo_renderer_isroot (set_nonroot_node r node) node = false := by
  rw [isroot_eq_not_testBit, set_nonroot_node_testBit]
  simp

/-- `set_nonroot_node` never clears an already-set non-root bit. -/
theorem isroot_set_nonroot_mono (r : Renderer) (node y : Wo_Node)
    (h : wo_renderer_isroot r y = false) :
    wo_renderer_isroot (set_nonroot_node r node) y = false := by
  rw [isroot_eq_not_testBit] at h ⊢
  rw [set_nonroot_node_testBit]
  simp only [Bool.not_eq_false'] at h
  simp [h]

/-- `set_nonroot_node` of one node leaves every other node's root status
unchanged. -/
theorem isroot_set_nonroot_other (r : Renderer) (node y : Wo_Node) (h : y ≠ node) :
    wo_renderer_isroot (set_nonroot_node r node) y = wo_renderer_isroot r y := by
  rw [isroot_eq_not_testBit, isroot_eq_not_testBit, set_nonroot_node_testBit]
  have : (decide (y / 64 = node / 64) && decide (y % 64 = node % 64)) = false := by
    by_cases hw : y / 64 = node / 64
    · by_cases hb : y % 64 = node % 64
      · exact absurd (node_word_bit_inj hw hb) h
      · simp [hb]
    · simp [hw]
  rw [this, Bool.or_false]

end CsgRenderer

namespace CsgRenderer

/-! Shape of a single node-creation call. -/

/-- Every creation call funnels through `allocate_node`, so on a full arena
every one of the five constructors hits the allocation-exhausted path. -/
theorem applyOp_eq_none {r : Renderer} (op : ArenaOp)
    (hc : r.current_node_count = r.max_node_count) : applyOp r op = none := by
  cases op <;>
    simp [applyOp, add_sphere_node, add_infinite_planar_partition_node, add_union_of_node,
      add_intersection_of_node, add_difference_of_node, allocate_node, hc]

/-- On a non-full arena no creation call hits the exhaustion path. -/
theorem applyOp_ne_none {r : Renderer} (op : ArenaOp)
    (hc : r.current_node_count ≠ r.max_node_count) : applyOp r op ≠ none := by
  cases op <;>
    simp [applyOp, add_sphere_node, add_infinite_planar_partition_node, add_union_of_node,
      add_intersection_of_node, add_difference_of_node, allocate_node, hc]

/-- On a non-full arena every creation call succeeds. -/
theorem applyOp_isSome {r : Renderer} (op : ArenaOp)
    (hc : r.current_node_count ≠ r.max_node_count) :
    ∃ n r1, applyOp r op = some (n, r1) := by
  rcases h : applyOp r op with _ | ⟨n, r1⟩
  · exact absurd h (applyOp_ne_none op hc)
  · exact ⟨n, r1, rfl⟩

/-- Full characterization of a successful creation call: the returned index is
the pre-call `current_node_count` narrowed to `uint32_t`; the count goes up by
one and the capacity is untouched; every kind/payload slot other than the one
at the narrowed index is untouched; leaf constructors leave the whole non-root
bitset untouched; any constructor leaves the root status of every non-child
index unchanged and clears the root status of every child index. -/
theorem applyOp_spec {r : Renderer} {op : ArenaOp} {n : Wo_Node} {r' : Renderer}
    (h : applyOp r op = some (n, r')) :
    n = r.current_node_count % 2 ^ 32 ∧
    r'.current_node_count = r.current_node_count + 1 ∧
    r'.max_node_count = r.max_node_count ∧
    (∀ m, m ≠ r.current_node_count % 2 ^ 32 →
      r'.node_type_table m = r.node_type_table m ∧
      r'.node_info_table m = r.node_info_table m) ∧
    (op.isLeaf = true → r'.node_is_nonroot_bitset = r.node_is_nonroot_bitset) ∧
    (∀ x, childOf x op = false → wo_renderer_isroot r' x = wo_renderer_isroot r x) ∧
    (∀ x, childOf x op = true → wo_renderer_isroot r' x = false) := by
  have hc : r.current_node_count ≠ r.max_node_count := by
    intro heq
    rw [applyOp_eq_none op heq] at h
    exact Option.noConfusion h
  cases op with
  | addSphere radius =>
    simp only [applyOp, add_sphere_node, allocate_node, if_neg hc, Option.some.injEq,
      Prod.mk.injEq] at h
    obtain ⟨hn, hr⟩ := h
    subst hn; subst hr
    refine ⟨rfl, rfl, rfl, fun m hm => ⟨?_, ?_⟩, fun _ => rfl, fun x _ => rfl, fun x hx => ?_⟩
    · exact Function.update_noteq hm _ _
    · exact Function.update_noteq hm _ _
    · exact absurd hx (by simp [childOf])
  | addPlanarPartition normal =>
    simp only [applyOp, add_infinite_planar_partition_node, allocate_node, if_neg hc,
      Option.some.injEq, Prod.mk.injEq] at h
    obtain ⟨hn, hr⟩ := h
    subst hn; subst hr
    refine ⟨rfl, rfl, rfl, fun m hm => ⟨?_, ?_⟩, fun _ => rfl, fun x _ => rfl, fun x hx => ?_⟩
    · exact Function.update_noteq hm _ _
    · exact Function.update_noteq hm _ _
    · exact absurd hx (by simp [childOf])
  | addUnionOf left right =>
    simp only [applyOp, add_union_of_node, allocate_node, if_neg hc, Option.some.injEq,
      Prod.mk.injEq] at h
    obtain ⟨hn, hr⟩ := h
    subst hn; subst hr
    refine ⟨rfl, rfl, rfl, fun m hm => ⟨?_, ?_⟩, fun hL => ?_, fun x hx => ?_, fun x hx => ?_⟩
    · exact Function.update_noteq hm _ _
    · exact Function.update_noteq hm _ _
    · exact absurd hL (by simp [ArenaOp.isLeaf])
    · simp only [childOf, Bool.or_eq_false_iff, beq_eq_false_iff_ne, ne_eq] at hx
      rw [isroot_set_nonroot_other _ _ _ hx.2, isroot_set_nonroot_other _ _ _ hx.1]
      rfl
    · simp only [childOf, Bool.or_eq_true, beq_iff_eq] at hx
      rcases hx with hx | hx
      · subst hx
        exact isroot_set_nonroot_mono _ _ _ (isroot_set_nonroot_self _ _)
      · subst hx
        exact isroot_set_nonroot_self _ _
  | addIntersectionOf left right =>
    simp only [applyOp, add_intersection_of_node, allocate_node, if_neg hc, Option.some.injEq,
      Prod.mk.injEq] at h
    obtain ⟨hn, hr⟩ := h
    subst hn; subst hr
    refine ⟨rfl, rfl, rfl, fun m hm => ⟨?_, ?_⟩, fun hL => ?_, fun x hx => ?_, fun x hx => ?_⟩
    · exact Function.update_noteq hm _ _
    · exact Function.update_noteq hm _ _
    · exact absurd hL (by simp [ArenaOp.isLeaf])
    · simp only [childOf, Bool.or_eq_false_iff, beq_eq_false_iff_ne, ne_eq] at hx
      rw [isroot_set_nonroot_other _ _ _ hx.2, isroot_set_nonroot_other _ _ _ hx.1]
      rfl
    · simp only [childOf, Bool.or_eq_true, beq_iff_eq] at hx
      rcases hx with hx | hx
      · subst hx
        exact isroot_set_nonroot_mono _ _ _ (isroot_set_nonroot_self _ _)
      · subst hx
        exact isroot_set_nonroot_self _ _
  | addDifferenceOf left right =>
    simp only [applyOp, add_difference_of_node, allocate_node, if_neg hc, Option.some.injEq,
      Prod.mk.injEq] at h
    obtain ⟨hn, hr⟩ := h
    subst hn; subst hr
    refine ⟨rfl, rfl, rfl, fun m hm => ⟨?_, ?_⟩, fun hL => ?_, fun x hx => ?_, fun x hx => ?_⟩
    · exact Function.update_noteq hm _ _
    · exact Function.update_noteq hm _ _
    · exact absurd hL (by simp [ArenaOp.isLeaf])
    · simp only [childOf, Bool.or_eq_false_iff, beq_eq_false_iff_ne, ne_eq] at hx
      rw [isroot_set_nonroot_other _ _ _ hx.2, isroot_set_nonroot_other _ _ _ hx.1]
      rfl
    · simp only [childOf, Bool.or_eq_true, beq_iff_eq] at hx
      rcases hx with hx | hx
      · subst hx
        exact isroot_set_nonroot_mono _ _ _ (isroot_set_nonroot_self _ _)
      · subst hx
        exact isroot_set_nonroot_self _ _

/-- A creation call never resurrects root status: non-root is preserved. -/
theorem applyOp_isroot_mono {r : Renderer} {op : ArenaOp} {n : Wo_Node} {r' : Renderer}
    (h : applyOp r op = some (n, r')) {x : Wo_Node}
    (hx : wo_renderer_isroot r x = false) : wo_renderer_isroot r' x = false := by
  obtain ⟨-, -, -, -, -, hkeep, hchild⟩ := applyOp_spec h
  cases hcx : childOf x op with
  | false => rw [hkeep x hcx]; exact hx
  | true => exact hchild x hcx

end CsgRenderer

namespace CsgRenderer

/-! Facts about sequences of creation calls. -/

/-- Non-root status survives any sequence of creation calls. -/
theorem runOps_isroot_mono {x : Wo_Node} :
    ∀ {ops : List ArenaOp} {r r' : Renderer}, runOps r ops = some r' →
      wo_renderer_isroot r x = false → wo_renderer_isroot r' x = false := by
  intro ops
  induction ops with
  | nil =>
    intro r r' h hx
    simp only [runOps, Option.some.injEq] at h
    exact h ▸ hx
  | cons op rest ih =>
    intro r r' h hx
    simp only [runOps] at h
    rcases ha : applyOp r op with _ | ⟨n, r1⟩
    · rw [ha] at h
      exact Option.noConfusion h
    · rw [ha] at h
      exact ih h (applyOp_isroot_mono ha hx)

/-- Root status of a node survives any sequence of creation calls in which the
node is never consumed as a child argument. -/
theorem runOps_isroot_of_never_child {x : Wo_Node} :
    ∀ {ops : List ArenaOp} {r r' : Renderer}, runOps r ops = some r' →
      (∀ op ∈ ops, childOf x op = false) →
      wo_renderer_isroot r' x = wo_renderer_isroot r x := by
  intro ops
  induction ops with
  | nil =>
    intro r r' h _
    simp only [runOps, Option.some.injEq] at h
    exact h ▸ rfl
  | cons op rest ih =>
    intro r r' h hops
    simp only [runOps] at h
    rcases ha : applyOp r op with _ | ⟨n, r1⟩
    · rw [ha] at h
      exact Option.noConfusion h
    · rw [ha] at h
      have hstep := (applyOp_spec ha).2.2.2.2.2.1 x (hops op (List.mem_cons_self op rest))
      rw [ih h (fun o ho => hops o (List.mem_cons_of_mem op ho)), hstep]

/-- In the freshly calloc-zeroed arena every index reads as a root. -/
theorem isroot_zero_initialized (C x : Nat) :
    wo_renderer_isroot (zero_initialized_renderer C) x = true := by
  rw [isroot_eq_not_testBit]
  simp [zero_initialized_renderer, Nat.zero_testBit]

/-- While the arena has room, creation calls hand out the `uint32`-narrowed
dense counter values `current_node_count % 2^32, (current_node_count + 1)
% 2^32, ...` and never touch the capacity. -/
theorem runTrace_full :
    ∀ {ops : List ArenaOp} {r : Renderer},
      r.current_node_count + ops.length ≤ r.max_node_count →
      ∃ r', runTrace r ops =
          some ((List.range' r.current_node_count ops.length).map (fun i => i % 2 ^ 32), r') ∧
        r'.current_node_count = r.current_node_count + ops.length ∧
        r'.max_node_count = r.max_node_count := by
  intro ops
  induction ops with
  | nil =>
    intro r _
    exact ⟨r, rfl, by simp, rfl⟩
  | cons op rest ih =>
    intro r h
    have hlen : (op :: rest).length = rest.length + 1 := by simp
    have hc : r.current_node_count ≠ r.max_node_count := by
      rw [hlen] at h
      omega
    obtain ⟨n, r1, h1⟩ := applyOp_isSome op hc
    obtain ⟨hn, hcur, hmax, -⟩ := applyOp_spec h1
    obtain ⟨r', hrun, hcur', hmax'⟩ := @ih r1 (by rw [hcur, hmax]; rw [hlen] at h; omega)
    refine ⟨r', ?_, ?_, ?_⟩
    · simp only [runTrace, h1, hrun, hn, hlen]
      rw [List.range'_succ _ _ 1, List.map_cons, hcur]
    · rw [hcur', hcur, hlen]
      omega
    · rw [hmax', hmax]

/-- Counterexample to C1 as stated: on an arena of capacity `2^32 + 1`, all
`2^32 + 1` sphere creations succeed, but the `(2^32 + 1)`-th call returns the
`uint32`-wrapped index 0 — the same index the very first call returned — so
not every one of the first `C` calls assigns a fresh index. -/
theorem arena_index_wrap_counterexample :
    (runTrace (zero_initialized_renderer (2 ^ 32 + 1))
        (List.replicate (2 ^ 32 + 1) (ArenaOp.addSphere 1))).map Prod.fst =
      some ((List.range (2 ^ 32 + 1)).map (fun i => i % 2 ^ 32)) ∧
    ((List.range (2 ^ 32 + 1)).map (fun i => i % 2 ^ 32)).get? 0 = some 0 ∧
    ((List.range (2 ^ 32 + 1)).map (fun i => i % 2 ^ 32)).get? (2 ^ 32) = some 0 := by
  refine ⟨?_, ?_, ?_⟩
  · have hzero : (zero_initialized_renderer (2 ^ 32 + 1)).current_node_count = 0 := rfl
    have hcap : (zero_initialized_renderer (2 ^ 32 + 1)).max_node_count = 2 ^ 32 + 1 := rfl
    obtain ⟨r', hrun, -, -⟩ :=
      @runTrace_full (List.replicate (2 ^ 32 + 1) (ArenaOp.addSphere 1))
        (zero_initialized_renderer (2 ^ 32 + 1))
        (by rw [hzero, List.length_replicate, hcap]; simp)
    rw [hrun, hzero, List.length_replicate, ← List.range_eq_range', Option.map_some']
  · rw [List.get?_map, List.get?_range (Nat.succ_pos _)]
    rfl
  · rw [List.get?_map, List.get?_range (Nat.lt_succ_self _)]
    simp [Nat.mod_self]

/-- C1, amended.  On an arena of any capacity `C`, any mix of the five
node-creation calls succeeds for the first `C` calls, handing out the dense
`size_t` counter values narrowed to `uint32_t` — which are the fresh distinct
indices `0, ..., C-1` whenever `C ≤ 2^32` — and the `(C+1)`-th call fails
through the allocation-exhausted condition of `allocate_node`
(`renderer.c:2220-2227`) rather than growing the arena. -/
theorem arena_capacity_exhaustion (C : Nat) (ops : List ArenaOp) (extra : ArenaOp)
    (hlen : ops.length = C) :
    (runTrace (zero_initialized_renderer C) ops).map Prod.fst =
      some ((List.range C).map (fun i => i % 2 ^ 32)) ∧
    (C ≤ 2 ^ 32 →
      (runTrace (zero_initialized_renderer C) ops).map Prod.fst = some (List.range C)) ∧
    (runTrace (zero_initialized_renderer C) ops).bind (fun p => applyOp p.2 extra) = none := by
  have hzero : (zero_initialized_renderer C).current_node_count = 0 := rfl
  have hcap : (zero_initialized_renderer C).max_node_count = C := rfl
  obtain ⟨r', hrun, hcur, hmax⟩ :=
    @runTrace_full ops (zero_initialized_renderer C)
      (by rw [hzero, hcap, hlen]; omega)
  have hrange : List.range' (zero_initialized_renderer C).current_node_count ops.length =
      List.range C := by
    rw [List.range_eq_range', hzero, hlen]
  have hfst : (runTrace (zero_initialized_renderer C) ops).map Prod.fst =
      some ((List.range C).map (fun i => i % 2 ^ 32)) := by
    rw [hrun, hrange]
    rfl
  refine ⟨hfst, ?_, ?_⟩
  · intro hsmall
    rw [hfst]
    have : (List.range C).map (fun i => i % 2 ^ 32) = (List.range C).map id :=
      List.map_congr_left fun i hi =>
        Nat.mod_eq_of_lt (lt_of_lt_of_le (List.mem_range.mp hi) hsmall)
    rw [this, List.map_id]
  · rw [hrun]
    exact applyOp_eq_none extra (by rw [hcur, hmax, hzero, hcap, hlen]; omega)

/-- Concrete creation sequence used to instantiate `arena_capacity_exhaustion`. -/
def c1w_ops : List ArenaOp := [ArenaOp.addSphere 1, ArenaOp.addSphere 1]

/-- Witness for the amended C1: capacity 2, two successful sphere creations
with fresh indices 0 and 1, and a failing third creation. -/
theorem arena_capacity_exhaustion_witness :
    c1w_ops.length = 2 ∧
    ((runTrace (zero_initialized_renderer 2) c1w_ops).map Prod.fst =
        some ((List.range 2).map (fun i => i % 2 ^ 32)) ∧
      (2 ≤ 2 ^ 32 →
        (runTrace (zero_initialized_renderer 2) c1w_ops).map Prod.fst =
          some (List.range 2)) ∧
      (runTrace (zero_initialized_renderer 2) c1w_ops).bind
        (fun p => applyOp p.2 (ArenaOp.addSphere 1)) = none) :=
  ⟨rfl, arena_capacity_exhaustion 2 c1w_ops (ArenaOp.addSphere 1) rfl⟩

end CsgRenderer

namespace CsgRenderer

/-- C2.  Whenever a node `x` is consumed as the child of a Node Argument by
any `add_union_of_node` / `add_intersection_of_node` / `add_difference_of_node`
call (the only calls with `childOf x op = true`), `wo_renderer_isroot` reports
false for `x` immediately after that call, and keeps reporting false after
every later sequence of arena creation calls: no operation ever clears a
non-root bit. -/
theorem nonroot_monotone (r : Renderer) (op : ArenaOp) (x n : Wo_Node) (r1 : Renderer)
    (hchild : childOf x op = true) (happly : applyOp r op = some (n, r1)) :
    wo_renderer_isroot r1 x = false ∧
    ∀ (ops : List ArenaOp) (r2 : Renderer), runOps r1 ops = some r2 →
      wo_renderer_isroot r2 x = false := by
  have h1 : wo_renderer_isroot r1 x = false := (applyOp_spec happly).2.2.2.2.2.2 x hchild
  exact ⟨h1, fun ops r2 hops => runOps_isroot_mono hops h1⟩

/-- Identity orientation quaternion used in concrete scenarios. -/
def q_identity : Wo_Quaternion := ⟨1, 0, 0, 0⟩

/-- Zero offset vector used in concrete scenarios. -/
def v3_zero : Wo_Vec3 := ⟨0, 0, 0⟩

/-- A Node Argument placing child `n` with identity orientation and no
offset. -/
def plain_argument (n : Wo_Node) : Wo_Node_Argument := ⟨q_identity, v3_zero, n⟩

/-- Arena state after two radius-1 spheres on a capacity-8 arena. -/
def c2w_start : Renderer :=
  (runOps (zero_initialized_renderer 8) [ArenaOp.addSphere 1, ArenaOp.addSphere 1]).getD
    (zero_initialized_renderer 0)

/-- The union call consuming spheres 0 and 1 as children. -/
def c2w_op : ArenaOp := ArenaOp.addUnionOf (plain_argument 0) (plain_argument 1)

/-- Result of the union call on `c2w_start`. -/
def c2w_result : Wo_Node × Renderer :=
  (applyOp c2w_start c2w_op).getD (0, zero_initialized_renderer 0)

/-- Witness for C2: after the union call node 0 is non-root, and it stays
non-root after a further sphere creation. -/
theorem nonroot_monotone_witness :
    childOf 0 c2w_op = true ∧
    wo_renderer_isroot c2w_result.2 0 = false ∧
    wo_renderer_isroot
      ((runOps c2w_result.2 [ArenaOp.addSphere 1]).getD (zero_initialized_renderer 0)) 0 =
      false := by
  have h := nonroot_monotone c2w_start c2w_op 0 c2w_result.1 c2w_result.2 rfl rfl
  exact ⟨rfl, h.1, h.2 [ArenaOp.addSphere 1] _ rfl⟩

/-- The capacity-8 scenario of the spec: two radius-1 spheres `S1 = 0` and
`S2 = 1`, then their union `U = 2`. -/
def c3_scenario_ops : List ArenaOp :=
  [ArenaOp.addSphere 1, ArenaOp.addSphere 1,
    ArenaOp.addUnionOf (plain_argument 0) (plain_argument 1)]

/-- C3.  Any created node that is never consumed as a child argument of a
binop creation call reads as a root, and in the concrete capacity-8 scenario
(two radius-1 spheres unioned) the spheres read non-root while the union reads
root. -/
theorem isroot_of_never_child :
    (∀ (C : Nat) (ops : List ArenaOp) (r' : Renderer),
      runOps (zero_initialized_renderer C) ops = some r' →
      ∀ x : Wo_Node, x < r'.current_node_count →
        (∀ op ∈ ops, childOf x op = false) →
        wo_renderer_isroot r' x = true) ∧
    (runOps (zero_initialized_renderer 8) c3_scenario_ops).map
        (fun r => (wo_renderer_isroot r 0, wo_renderer_isroot r 1, wo_renderer_isroot r 2)) =
      some (false, false, true) := by
  constructor
  · intro C ops r' hrun x _ hnever
    rw [runOps_isroot_of_never_child hrun hnever]
    exact isroot_zero_initialized C x
  · decide

/-- Final arena state of the capacity-8 scenario. -/
def c3_final : Renderer :=
  (runOps (zero_initialized_renderer 8) c3_scenario_ops).getD (zero_initialized_renderer 0)

/-- Witness for C3: the union node of the scenario is a root. -/
theorem isroot_of_never_child_witness : wo_renderer_isroot c3_final 2 = true :=
  isroot_of_never_child.1 8 c3_scenario_ops c3_final rfl 2 (by decide) (by decide)

end CsgRenderer

namespace CsgRenderer

/-- The arena state the program reaches after `2^32` successful radius-0
sphere creations on a capacity-`2^32 + 1` arena: the `size_t` counter is at
`2^32` while every table slot still holds its zero-initialized content (kind
`WO_LEAF_SPHERE`, payload `sphere 0`), exactly the values `add_sphere_node`
stores for radius 0. -/
def c10_wrap_start : Renderer :=
  { zero_initialized_renderer (2 ^ 32 + 1) with current_node_count := 2 ^ 32 }

/-- Counterexample to C10 as stated: on `c10_wrap_start` the next
`add_sphere_node` call writes through the `uint32`-wrapped index 0
(`renderer.c:2224`), overwriting previously created node 0's payload entry
(`sphere 0` becomes `sphere 1`) instead of leaving every previously created
node's entries unchanged. -/
theorem node_creation_wrap_counterexample :
    (applyOp c10_wrap_start (ArenaOp.addSphere 1)).map (fun p => p.2.node_info_table 0) =
      some (NodeInfo.sphere 1) ∧
    c10_wrap_start.node_info_table 0 = NodeInfo.sphere 0 ∧
    (0 : Nat) < c10_wrap_start.current_node_count ∧
    NodeInfo.sphere 1 ≠ NodeInfo.sphere 0 := by
  refine ⟨?_, rfl, by decide, by decide⟩
  have hne : c10_wrap_start.current_node_count ≠ c10_wrap_start.max_node_count := by decide
  simp only [applyOp, add_sphere_node, allocate_node, if_neg hne, Option.map_some']
  have hupd : (Function.update c10_wrap_start.node_info_table
      (c10_wrap_start.current_node_count % 2 ^ 32) (NodeInfo.sphere 1)) 0 =
      NodeInfo.sphere 1 := by
    rw [show c10_wrap_start.current_node_count % 2 ^ 32 = 0 from Nat.mod_self (2 ^ 32)]
    exact Function.update_same _ _ _
  exact congrArg some hupd

/-- C10, amended.  Every node-creation call writes the new node's kind and
payload only at the `uint32`-wrapped slot `current_node_count % 2^32` — so
every other node's kind entry and payload entry is unchanged, which covers
every previously created node whenever fewer than `2^32` nodes exist; the two
leaf constructors leave the whole non-root bitset untouched; the three binop
constructors leave the root status of every index other than their two child
arguments unchanged and clear the root status of exactly those two child
arguments. -/
theorem node_creation_frame_effect (r : Renderer) (op : ArenaOp) (n : Wo_Node) (r' : Renderer)
    (h : applyOp r op = some (n, r')) :
    n = r.current_node_count % 2 ^ 32 ∧
    (∀ m, m ≠ r.current_node_count % 2 ^ 32 →
      r'.node_type_table m = r.node_type_table m ∧
      r'.node_info_table m = r.node_info_table m) ∧
    (r.current_node_count < 2 ^ 32 →
      ∀ m, m < r.current_node_count →
        r'.node_type_table m = r.node_type_table m ∧
        r'.node_info_table m = r.node_info_table m) ∧
    (op.isLeaf = true → r'.node_is_nonroot_bitset = r.node_is_nonroot_bitset) ∧
    (∀ x, childOf x op = false → wo_renderer_isroot r' x = wo_renderer_isroot r x) ∧
    (∀ x, childOf x op = true → wo_renderer_isroot r' x = false) := by
  obtain ⟨hn, -, -, htab, hleaf, hkeep, hchild⟩ := applyOp_spec h
  refine ⟨hn, htab, fun hsmall m hm => htab m ?_, hleaf, hkeep, hchild⟩
  rw [Nat.mod_eq_of_lt hsmall]
  omega

/-- Witness for the amended C10: in the capacity-8 scenario, the union call
leaves sphere 0's kind and payload slots unchanged and clears sphere 1's root
status. -/
theorem node_creation_frame_effect_witness :
    c2w_result.2.node_type_table 0 = c2w_start.node_type_table 0 ∧
    wo_renderer_isroot c2w_result.2 1 = false :=
  ⟨((node_creation_frame_effect c2w_start c2w_op c2w_result.1 c2w_result.2 rfl).2.2.1
      (by decide) 0 (by decide)).1,
    (node_creation_frame_effect c2w_start c2w_op c2w_result.1 c2w_result.2 rfl).2.2.2.2.2
      1 rfl⟩

/-- `MAX_FRAMES_IN_FLIGHT` (`renderer.c:51`). -/
def MAX_FRAMES_IN_FLIGHT : Nat := 2

/-- The final action of `draw_frame_with_renderer` (`renderer.c:2214-2218`):
`current_frame_index = (current_frame_index + 1) % MAX_FRAMES_IN_FLIGHT`. -/
def advance_current_frame_index (current_frame_index : Nat) : Nat :=
  (current_frame_index + 1) % MAX_FRAMES_IN_FLIGHT

/-- `current_frame_index` after `n` non-fatal `draw_frame_with_renderer` calls
on a freshly constructed renderer: `new_renderer` starts it at 0
(`renderer.c:335`) and each call ends with `advance_current_frame_index`. -/
def current_frame_index_after : Nat → Nat
  | 0 => 0
  | n + 1 => advance_current_frame_index (current_frame_index_after n)

/-- C9.  After any number `n` of non-fatal `draw_frame` calls on a freshly
constructed renderer, `current_frame_index` equals `n mod 2`. -/
theorem frame_index_mod_two (n : Nat) : current_frame_index_after n = n % 2 := by
  induction n with
  | zero => rfl
  | succ k ih =>
    unfold current_frame_index_after advance_current_frame_index MAX_FRAMES_IN_FLIGHT
    rw [ih]
    omega

/-- The requested swapchain image count (`renderer.c:896-899`):
`MIN(1 + capabilities.minImageCount, capabilities.maxImageCount)` in
`uint32_t` arithmetic, with no special case for `maxImageCount == 0`. -/
def requested_swapchain_image_count (minImageCount maxImageCount : Nat) : Nat :=
  min ((1 + minImageCount) % 2 ^ 32) maxImageCount

/-- The image-count rule the spec (and the code's own comment at
`renderer.c:895`, "note '0' is a special value meaning no maximum") calls
for: `min(minImageCount + 1, maxImageCount)` under zero-means-unbounded
semantics of `maxImageCount`. -/
def claimed_swapchain_image_count (minImageCount maxImageCount : Nat) : Nat :=
  if maxImageCount = 0 then minImageCount + 1 else min (minImageCount + 1) maxImageCount

/-- C6 (code bug).  For surface capabilities with `minImageCount = 2` and the
unbounded sentinel `maxImageCount = 0`, the code requests 0 swapchain images
while its own comment and the spec call for `minImageCount + 1 = 3`. -/
theorem image_count_zero_max_bug :
    requested_swapchain_image_count 2 0 = 0 ∧
    claimed_swapchain_image_count 2 0 = 3 ∧
    requested_swapchain_image_count 2 0 ≠ claimed_swapchain_image_count 2 0 := by
  decide

/-- Outcome of a C execution path that may dereference a null pointer. -/
inductive CExec (α : Type) where
  | ok (value : α)
  | nullDeref

/-- `new_renderer` (`renderer.c:331-337`) as executed: it calls
`allocate_renderer` (whose slab `calloc` can fail and return NULL,
`renderer.c:361-365`), then passes the result to `vk_init_renderer`
unconditionally.  `vk_init_renderer` (`renderer.c:394`) begins with
`renderer->app = app` (`renderer.c:396`) with no null check, so a NULL
renderer is dereferenced (`CExec.nullDeref`) rather than propagated.  On a
non-NULL renderer the Vulkan initialization talks to the external driver and
is abstracted as the parameter `vk_init_rest`; its `none` is the fatal-error
path returning NULL (`renderer.c:1806-1809`), which `new_renderer` then also
dereferences via `renderer->current_frame_index = 0` (`renderer.c:335`). -/
def new_renderer (vk_init_rest : Renderer → Option Renderer) (calloc_ok : Bool)
    (max_node_count : Nat) : CExec Renderer :=
  match allocate_renderer calloc_ok max_node_count with
  | none => CExec.nullDeref
  | some r0 =>
    match vk_init_rest r0 with
    | none => CExec.nullDeref
    | some r1 => CExec.ok { r1 with current_frame_index := 0 }

/-- C5 (code bug).  When the arena slab allocation fails, `wo_renderer_new`
does not return a null/failure result: it dereferences the null renderer
pointer inside `vk_init_renderer`. -/
theorem new_renderer_null_deref_on_alloc_failure
    (vk_init_rest : Renderer → Option Renderer) (max_node_count : Nat) :
    new_renderer vk_init_rest false max_node_count = CExec.nullDeref := rfl

/-- Success bookkeeping of the swapchain-framebuffer creation loop
(`renderer.c:1422-1452`): iterating `i` over the swapchain images (the list
holds each `vkCreateFramebuffer` outcome), a successful iteration executes
`renderer->vk_swapchain_fbs_ok_count = i` (`renderer.c:1450`); a failed one
leaves the count alone.  The field starts at 0 (calloc zero-init). -/
def fbs_ok_count_loop : List Bool → Nat → Nat → Nat
  | [], _, acc => acc
  | created :: rest, i, acc => fbs_ok_count_loop rest (i + 1) (if created then i else acc)

/-- `vk_swapchain_fbs_ok_count` after the framebuffer creation loop. -/
def vk_swapchain_fbs_ok_count (create_results : List Bool) : Nat :=
  fbs_ok_count_loop create_results 0 0

/-- The framebuffer indices destroyed by `del_renderer`
(`renderer.c:1912-1924`): the loop destroys `vk_swapchain_framebuffers[i_fb]`
for `0 <= i_fb < vk_swapchain_fbs_ok_count`. -/
def destroyed_framebuffer_indices (create_results : List Bool) : List Nat :=
  List.range (vk_swapchain_fbs_ok_count create_results)

/-- C4 (code bug).  With 3 swapchain images and all 3 framebuffer creations
succeeding, the recorded ok-count is 2, so teardown destroys only
framebuffers 0 and 1 and leaks framebuffer 2 — not the claimed all-N
destruction. -/
theorem framebuffer_teardown_leak :
    vk_swapchain_fbs_ok_count [true, true, true] = 2 ∧
    destroyed_framebuffer_indices [true, true, true] = [0, 1] ∧
    destroyed_framebuffer_indices [true, true, true] ≠ List.range 3 := by
  decide

end CsgRenderer

namespace CsgRenderer

/-- `VK_FORMAT_B8G8R8A8_SRGB` (Vulkan enum value 50). -/
def VK_FORMAT_B8G8R8A8_SRGB : Nat := 50

/-- `VK_COLOR_SPACE_SRGB_NONLINEAR_KHR` (Vulkan enum value 0). -/
def VK_COLOR_SPACE_SRGB_NONLINEAR_KHR : Nat := 0

/-- `VkSurfaceFormatKHR`: the two fields the format selection reads. -/
structure VkSurfaceFormatKHR where
  format : Nat
  colorSpace : Nat
deriving DecidableEq

/-- The ideal-format test of the scan (`renderer.c:820-823`). -/
def format_is_ideal (f : VkSurfaceFormatKHR) : Bool :=
  f.format == VK_FORMAT_B8G8R8A8_SRGB && f.colorSpace == VK_COLOR_SPACE_SRGB_NONLINEAR_KHR

/-- The scanning loop (`renderer.c:816-828`): `ideal_index` starts at 0, the
index of the first ideal entry is taken and the loop breaks; if no entry is
ideal, `ideal_index` stays at its initial value 0. -/
def scan_ideal_format_index : List VkSurfaceFormatKHR → Nat → Nat
  | [], _ => 0
  | f :: rest, i => if format_is_ideal f then i else scan_ideal_format_index rest (i + 1)

/-- The chosen present format
(`renderer.c:831`: `vk_available_formats[ideal_index]`). -/
def vk_chosen_present_surface_format (vk_available_formats : List VkSurfaceFormatKHR) :
    Option VkSurfaceFormatKHR :=
  vk_available_formats.get? (scan_ideal_format_index vk_available_formats 0)

/-- When no entry is ideal, the scan leaves `ideal_index` at 0. -/
theorem scan_ideal_format_index_of_none :
    ∀ (formats : List VkSurfaceFormatKHR) (i : Nat),
      (∀ f ∈ formats, format_is_ideal f = false) →
      scan_ideal_format_index formats i = 0 := by
  intro formats
  induction formats with
  | nil => intro i _; rfl
  | cons f rest ih =>
    intro i h
    rw [scan_ideal_format_index, if_neg (by simp [h f (List.mem_cons_self f rest)])]
    exact ih (i + 1) fun x hx => h x (List.mem_cons_of_mem f hx)

/-- The scan stops at the first ideal entry. -/
theorem scan_ideal_format_index_of_first :
    ∀ (formats : List VkSurfaceFormatKHR) (i k : Nat), k < formats.length →
      format_is_ideal (formats.getD k ⟨0, 0⟩) = true →
      (∀ j < k, format_is_ideal (formats.getD j ⟨0, 0⟩) = false) →
      scan_ideal_format_index formats i = i + k := by
  intro formats
  induction formats with
  | nil => intro i k hk; exact absurd hk (by simp)
  | cons f rest ih =>
    intro i k hk hideal hfirst
    cases k with
    | zero =>
      have hideal1 : format_is_ideal f = true := hideal
      rw [scan_ideal_format_index, if_pos hideal1]
      omega
    | succ k1 =>
      have h0 : format_is_ideal f = false := hfirst 0 (Nat.succ_pos k1)
      rw [scan_ideal_format_index, if_neg (by simp [h0])]
      rw [ih (i + 1) k1 (by simp at hk; omega) hideal (fun j hj => hfirst (j + 1) (by omega))]
      omega

/-- C8.  For a non-empty available-format list, the chosen present format is
the first entry that is exactly `{B8G8R8A8_SRGB, SRGB_NONLINEAR}` when such an
entry exists, and otherwise the first entry of the list (index 0). -/
theorem present_format_choice (formats : List VkSurfaceFormatKHR) (hne : formats ≠ []) :
    ((∀ f ∈ formats, format_is_ideal f = false) →
      vk_chosen_present_surface_format formats = formats.get? 0) ∧
    (∀ k, k < formats.length → format_is_ideal (formats.getD k ⟨0, 0⟩) = true →
      (∀ j < k, format_is_ideal (formats.getD j ⟨0, 0⟩) = false) →
      vk_chosen_present_surface_format formats = some (formats.getD k ⟨0, 0⟩)) := by
  constructor
  · intro hnone
    rw [vk_chosen_present_surface_format, scan_ideal_format_index_of_none formats 0 hnone]
  · intro k hk hideal hfirst
    rw [vk_chosen_present_surface_format, scan_ideal_format_index_of_first formats 0 k hk hideal hfirst]
    rw [Nat.zero_add, List.get?_eq_get hk, List.getD_eq_get? formats k, List.get?_eq_get hk]
    rfl

/-- Available-format list used to instantiate `present_format_choice`: entry 0
is `{B8G8R8A8_UNORM, SRGB_NONLINEAR}` (not ideal), entry 1 is the ideal pair. -/
def c8w_formats : List VkSurfaceFormatKHR := [⟨44, 0⟩, ⟨50, 0⟩]

/-- Witness for C8: on `c8w_formats` the chosen format is the ideal entry at
index 1. -/
theorem present_format_choice_witness :
    vk_chosen_present_surface_format c8w_formats = some ⟨50, 0⟩ :=
  (present_format_choice c8w_formats (by decide)).2 1 (by decide) (by decide) (by decide)

end CsgRenderer

namespace CsgRenderer

/-- One enumerated queue family as the selection loop reads it: whether its
`queueFlags` contain `VK_QUEUE_GRAPHICS_BIT`, and whether
`vkGetPhysicalDeviceSurfaceSupportKHR` reports present support for it. -/
structure QueueFamily where
  supports_graphics : Bool
  supports_present : Bool
deriving DecidableEq

/-- Graphics capability of family `j` (default-false past the end, mirroring
that the loop never reads past `vk_queue_family_count`). -/
def qfamG (families : List QueueFamily) (j : Nat) : Bool :=
  (families.getD j ⟨false, false⟩).supports_graphics

/-- Present capability of family `j`. -/
def qfamP (families : List QueueFamily) (j : Nat) : Bool :=
  (families.getD j ⟨false, false⟩).supports_present

/-- The queue-family selection loop (`renderer.c:684-710`).  Both chosen
indices start out as `vk_queue_family_count` (`renderer.c:678-679`); each
iteration overwrites the graphics index whenever the family advertises
graphics and the present index whenever the surface reports present support,
and the loop breaks as soon as both indices have been assigned
(`renderer.c:702-709`). -/
def pick_queue_families_loop (count : Nat) :
    List QueueFamily → Nat → Nat → Nat → Nat × Nat
  | [], _, g, p => (g, p)
  | fam :: rest, index, g, p =>
    let g1 := if fam.supports_graphics then index else g
    let p1 := if fam.supports_present then index else p
    if g1 ≠ count ∧ p1 ≠ count then (g1, p1)
    else pick_queue_families_loop count rest (index + 1) g1 p1

/-- The chosen (graphics, present) queue family indices for an enumerated
family list. -/
def pick_queue_families (families : List QueueFamily) : Nat × Nat :=
  pick_queue_families_loop families.length families 0 families.length families.length

/-- Past-the-end indices have no graphics capability. -/
theorem qfamG_of_le_length {families : List QueueFamily} {j : Nat}
    (h : families.length ≤ j) : qfamG families j = false := by
  rw [qfamG, List.getD_eq_default _ _ h]

/-- Past-the-end indices have no present capability. -/
theorem qfamP_of_le_length {families : List QueueFamily} {j : Nat}
    (h : families.length ≤ j) : qfamP families j = false := by
  rw [qfamP, List.getD_eq_default _ _ h]

/-- Counterexample to C7 as stated: with families
`[{graphics, no present}, {graphics, present}]` the first enumerated family
advertising graphics has index 0, but the loop keeps overwriting the graphics
index while it is still searching for a present-capable family and chooses
graphics family 1. -/
theorem queue_pick_not_first_graphics :
    (pick_queue_families [⟨true, false⟩, ⟨true, true⟩]).1 = 1 ∧
    qfamG [⟨true, false⟩, ⟨true, true⟩] 0 = true ∧
    (pick_queue_families [⟨true, false⟩, ⟨true, true⟩]).1 ≠ 0 := by
  decide

end CsgRenderer

namespace CsgRenderer

/-- Loop invariant for `pick_queue_families_loop`.  Provided the full list
contains a first graphics-capable family `fg` and a first present-capable
family `fp`, and the accumulators describe the scan so far (each is either
still unassigned, i.e. equal to `count`, or the most recent capable index seen,
and at least one is still unassigned since the loop has not broken), the loop
returns the most recent graphics-capable and present-capable indices at the
break point `max fg fp`. -/
theorem pick_loop_spec (families : List QueueFamily) (fg fp : Nat)
    (hfgl : fg < families.length) (hfg : qfamG families fg = true)
    (hfgf : ∀ j < fg, qfamG families j = false)
    (hfpl : fp < families.length) (hfp : qfamP families fp = true)
    (hfpf : ∀ j < fp, qfamP families j = false) :
    ∀ (rest : List QueueFamily) (index g p : Nat),
      rest = families.drop index →
      ((g = families.length ∧ ∀ j < index, qfamG families j = false) ∨
        (g < index ∧ qfamG families g = true ∧
          ∀ j, g < j → j < index → qfamG families j = false)) →
      ((p = families.length ∧ ∀ j < index, qfamP families j = false) ∨
        (p < index ∧ qfamP families p = true ∧
          ∀ j, p < j → j < index → qfamP families j = false)) →
      (g = families.length ∨ p = families.length) →
      ((pick_queue_families_loop families.length rest index g p).1 ≤ max fg fp ∧
        qfamG families (pick_queue_families_loop families.length rest index g p).1 = true ∧
        (∀ j, (pick_queue_families_loop families.length rest index g p).1 < j →
          j ≤ max fg fp → qfamG families j = false)) ∧
      ((pick_queue_families_loop families.length rest index g p).2 ≤ max fg fp ∧
        qfamP families (pick_queue_families_loop families.length rest index g p).2 = true ∧
        (∀ j, (pick_queue_families_loop families.length rest index g p).2 < j →
          j ≤ max fg fp → qfamP families j = false)) := by
  intro rest
  induction rest with
  | nil =>
    intro index g p hdrop hgi hpi hnb
    exfalso
    have hlen : families.length ≤ index := by
      have hcong := congrArg List.length hdrop
      simp only [List.length_nil, List.length_drop] at hcong
      omega
    have hgne : g ≠ families.length := by
      intro hEq
      rcases hgi with ⟨-, hall⟩ | ⟨-, hGg, -⟩
      · have hbad := hall fg (by omega)
        rw [hfg] at hbad
        exact Bool.noConfusion hbad
      · rw [hEq, qfamG_of_le_length (le_refl _)] at hGg
        exact Bool.noConfusion hGg
    have hpne : p ≠ families.length := by
      intro hEq
      rcases hpi with ⟨-, hall⟩ | ⟨-, hPp, -⟩
      · have hbad := hall fp (by omega)
        rw [hfp] at hbad
        exact Bool.noConfusion hbad
      · rw [hEq, qfamP_of_le_length (le_refl _)] at hPp
        exact Bool.noConfusion hPp
    rcases hnb with h | h
    exacts [hgne h, hpne h]
  | cons fam rest ih =>
    intro index g p hdrop hgi hpi hnb
    have hidx : index < families.length := by
      by_contra hge
      push_neg at hge
      rw [List.drop_eq_nil_of_le hge] at hdrop
      exact List.noConfusion hdrop
    have hfam : families.getD index ⟨false, false⟩ = fam := by
      have hget : families.get? index = some fam := by
        have h1 : (families.drop index).get? 0 = families.get? (index + 0) :=
          List.get?_drop families index 0
        rw [← hdrop] at h1
        simpa using h1.symm
      rw [List.getD_eq_get?, hget]
      rfl
    have hrest : rest = families.drop (index + 1) := by
      have h1 : (families.drop index).drop 1 = families.drop (index + 1) :=
        List.drop_drop 1 index families
      rw [← hdrop] at h1
      exact h1
    have hfamG : qfamG families index = fam.supports_graphics := by
      rw [qfamG, hfam]
    have hfamP : qfamP families index = fam.supports_present := by
      rw [qfamP, hfam]
    have hunfold : pick_queue_families_loop families.length (fam :: rest) index g p =
        if (if fam.supports_graphics then index else g) ≠ families.length ∧
            (if fam.supports_present then index else p) ≠ families.length
        then ((if fam.supports_graphics then index else g),
          (if fam.supports_present then index else p))
        else pick_queue_families_loop families.length rest (index + 1)
          (if fam.supports_graphics then index else g)
          (if fam.supports_present then index else p) := rfl
    generalize hg1 : (if fam.supports_graphics then index else g) = g1 at hunfold
    generalize hp1 : (if fam.supports_present then index else p) = p1 at hunfold
    have hgi1 : (g1 = families.length ∧ ∀ j < index + 1, qfamG families j = false) ∨
        (g1 < index + 1 ∧ qfamG families g1 = true ∧
          ∀ j, g1 < j → j < index + 1 → qfamG families j = false) := by
      cases hG : fam.supports_graphics with
      | true =>
        rw [hG, if_pos rfl] at hg1
        subst hg1
        exact Or.inr ⟨Nat.lt_succ_self index, by rw [hfamG, hG], fun j h1 h2 => by omega⟩
      | false =>
        rw [hG, if_neg (by simp)] at hg1
        subst hg1
        have hGidx : qfamG families index = false := by rw [hfamG, hG]
        rcases hgi with ⟨heq, hall⟩ | ⟨hlt, hGg, hnone⟩
        · refine Or.inl ⟨heq, fun j hj => ?_⟩
          rcases Nat.lt_or_ge j index with hj1 | hj1
          · exact hall j hj1
          · have : j = index := by omega
            rw [this]
            exact hGidx
        · refine Or.inr ⟨by omega, hGg, fun j h1 h2 => ?_⟩
          rcases Nat.lt_or_ge j index with hj1 | hj1
          · exact hnone j h1 hj1
          · have : j = index := by omega
            rw [this]
            exact hGidx
    have hpi1 : (p1 = families.length ∧ ∀ j < index + 1, qfamP families j = false) ∨
        (p1 < index + 1 ∧ qfamP families p1 = true ∧
          ∀ j, p1 < j → j < index + 1 → qfamP families j = false) := by
      cases hP : fam.supports_present with
      | true =>
        rw [hP, if_pos rfl] at hp1
        subst hp1
        exact Or.inr ⟨Nat.lt_succ_self index, by rw [hfamP, hP], fun j h1 h2 => by omega⟩
      | false =>
        rw [hP, if_neg (by simp)] at hp1
        subst hp1
        have hPidx : qfamP families index = false := by rw [hfamP, hP]
        rcases hpi with ⟨heq, hall⟩ | ⟨hlt, hPp, hnone⟩
        · refine Or.inl ⟨heq, fun j hj => ?_⟩
          rcases Nat.lt_or_ge j index with hj1 | hj1
          · exact hall j hj1
          · have : j = index := by omega
            rw [this]
            exact hPidx
        · refine Or.inr ⟨by omega, hPp, fun j h1 h2 => ?_⟩
          rcases Nat.lt_or_ge j index with hj1 | hj1
          · exact hnone j h1 hj1
          · have : j = index := by omega
            rw [this]
            exact hPidx
    by_cases hbreak : g1 ≠ families.length ∧ p1 ≠ families.length
    · rw [hunfold, if_pos hbreak]
      have hfg_le : fg ≤ index := by
        by_contra hlt
        push_neg at hlt
        rcases hgi1 with ⟨heq, -⟩ | ⟨hlt1, hGg1, -⟩
        · exact hbreak.1 heq
        · have hbad := hfgf g1 (by omega)
          rw [hGg1] at hbad
          exact Bool.noConfusion hbad
      have hfp_le : fp ≤ index := by
        by_contra hlt
        push_neg at hlt
        rcases hpi1 with ⟨heq, -⟩ | ⟨hlt1, hPp1, -⟩
        · exact hbreak.2 heq
        · have hbad := hfpf p1 (by omega)
          rw [hPp1] at hbad
          exact Bool.noConfusion hbad
      have hidx_le : index ≤ max fg fp := by
        rcases hnb with heq | heq
        · rcases hgi with ⟨-, hall⟩ | ⟨-, hGg, -⟩
          · by_contra hgt
            push_neg at hgt
            have hbad := hall fg (by omega)
            rw [hfg] at hbad
            exact Bool.noConfusion hbad
          · rw [heq, qfamG_of_le_length (le_refl _)] at hGg
            exact Bool.noConfusion hGg
        · rcases hpi with ⟨-, hall⟩ | ⟨-, hPp, -⟩
          · by_contra hgt
            push_neg at hgt
            have hbad := hall fp (by omega)
            rw [hfp] at hbad
            exact Bool.noConfusion hbad
          · rw [heq, qfamP_of_le_length (le_refl _)] at hPp
            exact Bool.noConfusion hPp
      have hB : index = max fg fp := by omega
      constructor
      · rcases hgi1 with ⟨heq, -⟩ | ⟨hlt1, hGg1, hnone1⟩
        · exact absurd heq hbreak.1
        · exact ⟨by omega, hGg1, fun j hj1 hj2 => hnone1 j hj1 (by omega)⟩
      · rcases hpi1 with ⟨heq, -⟩ | ⟨hlt1, hPp1, hnone1⟩
        · exact absurd heq hbreak.2
        · exact ⟨by omega, hPp1, fun j hj1 hj2 => hnone1 j hj1 (by omega)⟩
    · rw [hunfold, if_neg hbreak]
      have hnb1 : g1 = families.length ∨ p1 = families.length := by
        rcases Decidable.not_and_iff_or_not.mp hbreak with h | h
        · exact Or.inl (Decidable.not_not.mp h)
        · exact Or.inr (Decidable.not_not.mp h)
      exact ih (index + 1) g1 p1 hrest hgi1 hpi1 hnb1

/-- C7, amended.  For every enumerated family list containing at least one
graphics-capable family (first such index `fg`) and at least one
present-capable family (first such index `fp`), the scan breaks at index
`B = max fg fp` — the first index at which both capabilities have been seen —
and the chosen graphics family is the *last* graphics-capable index at or
before `B` (and the chosen present family the last present-capable index at
or before `B`), not necessarily the first graphics-capable one. -/
theorem queue_pick_last_before_break (families : List QueueFamily) (fg fp : Nat)
    (hfgl : fg < families.length) (hfg : qfamG families fg = true)
    (hfgf : ∀ j < fg, qfamG families j = false)
    (hfpl : fp < families.length) (hfp : qfamP families fp = true)
    (hfpf : ∀ j < fp, qfamP families j = false) :
    ((pick_queue_families families).1 ≤ max fg fp ∧
      qfamG families (pick_queue_families families).1 = true ∧
      (∀ j, (pick_queue_families families).1 < j → j ≤ max fg fp →
        qfamG families j = false)) ∧
    ((pick_queue_families families).2 ≤ max fg fp ∧
      qfamP families (pick_queue_families families).2 = true ∧
      (∀ j, (pick_queue_families families).2 < j → j ≤ max fg fp →
        qfamP families j = false)) :=
  pick_loop_spec families fg fp hfgl hfg hfgf hfpl hfp hfpf families 0
    families.length families.length (List.drop_zero families).symm
    (Or.inl ⟨rfl, fun j hj => absurd hj (Nat.not_lt_zero j)⟩)
    (Or.inl ⟨rfl, fun j hj => absurd hj (Nat.not_lt_zero j)⟩)
    (Or.inl rfl)

/-- Witness for the amended C7 on the counterexample family list: with
`fg = 0` and `fp = 1`, both chosen indices are at most `max 0 1 = 1` and the
chosen graphics family is graphics-capable. -/
theorem queue_pick_last_before_break_witness :
    (pick_queue_families [⟨true, false⟩, ⟨true, true⟩]).1 ≤ max 0 1 ∧
    qfamG [⟨true, false⟩, ⟨true, true⟩]
      (pick_queue_families [⟨true, false⟩, ⟨true, true⟩]).1 = true :=
  ⟨(queue_pick_last_before_break [⟨true, false⟩, ⟨true, true⟩] 0 1 (by decide) (by decide)
      (by decide) (by decide) (by decide) (by decide)).1.1,
    (queue_pick_last_before_break [⟨true, false⟩, ⟨true, true⟩] 0 1 (by decide) (by decide)
      (by decide) (by decide) (by decide) (by decide)).1.2.1⟩

end CsgRenderer
